import Mathlib

/-!
Verification development for the zenoh-recorder repository.

Shallow embedding of the core components named by the specification:
the MCAP batch serializer (src/mcap_writer.rs, src/protocol.rs), the
double-buffered topic buffer (src/buffer.rs), the storage retry loop
(src/storage.rs, src/storage/backend.rs, src/storage/reductstore.rs),
the topic-to-entry-name mapping (src/storage.rs), and the recording
session state machine (modelled from the specification, since
src/recorder.rs is not part of the provided sources).

Bytes are modelled as natural numbers (each byte < 256 where it
matters); machine-integer casts are made explicit with modular
arithmetic.
-/

/-- One message delivered by the pub/sub layer, as used by the recorder:
opaque payload bytes plus an optional source timestamp (nanoseconds,
an unsigned 64-bit value in the source via ts.get_time().as_u64()). -/
structure Sample where
  payload : List Nat
  timestamp : Option Nat
  deriving Repr, DecidableEq

/-- Compression type from src/protocol.rs (None, Lz4, Zstd). -/
inductive CompressionType where
  | none
  | lz4
  | zstd
  deriving Repr, DecidableEq

/-- Compression level from src/protocol.rs (0-4 ordinal scale). -/
inductive CompressionLevel where
  | Fastest
  | Fast
  | Default
  | Slow
  | Slowest
  deriving Repr, DecidableEq

/-- CompressionLevel::to_zstd_level from src/protocol.rs. -/
def CompressionLevel.to_zstd_level : CompressionLevel → Int
  | .Fastest => 1
  | .Fast => 3
  | .Default => 5
  | .Slow => 10
  | .Slowest => 19

/-- CompressionLevel::to_lz4_level from src/protocol.rs. -/
def CompressionLevel.to_lz4_level : CompressionLevel → Nat
  | .Fastest => 1
  | .Fast => 3
  | .Default => 5
  | .Slow => 9
  | .Slowest => 12

/-- Protobuf varint encoding (base-128, little-endian groups, high bit =
continuation), as produced by prost for length and integer fields.
Structured with fuel for structural recursion; fuel n always suffices. -/
def varintEncodeAux : Nat → Nat → List Nat
  | 0, n => [n % 128]
  | fuel + 1, n => if n < 128 then [n] else (n % 128 + 128) :: varintEncodeAux fuel (n / 128)

/-- Protobuf varint encoding of a natural number. -/
def varintEncode (n : Nat) : List Nat :=
  varintEncodeAux n n

/-- Protobuf varint decoding: returns the value and the remaining bytes. -/
def varintDecode : List Nat → Option (Nat × List Nat)
  | [] => Option.none
  | b :: rest =>
    if b < 128 then some (b, rest)
    else
      match varintDecode rest with
      | some (n, r) => some ((b - 128) + 128 * n, r)
      | Option.none => Option.none

/-- ASCII bytes of a string literal (all header literals are ASCII). -/
def strB (s : String) : List Nat :=
  s.toList.map Char.toNat

/-- Decimal ASCII digits of a natural number, most significant first, as
produced by Rust's Display for usize in the header's count field.
Fuel-structured; fuel n always suffices. -/
def natDigitsAux : Nat → Nat → List Nat
  | 0, n => [48 + n % 10]
  | fuel + 1, n => if n < 10 then [48 + n] else natDigitsAux fuel (n / 10) ++ [48 + n % 10]

/-- Decimal ASCII digits of a natural number. -/
def natDigits (n : Nat) : List Nat :=
  natDigitsAux n n

/-- The 4-byte little-endian length prefix written by serialize_batch:
(msg.len() as u32).to_le_bytes(). The as-u32 cast is reflected by the
fact that only the low 32 bits of n influence the bytes. -/
def u32le (n : Nat) : List Nat :=
  [n % 256, n / 256 % 256, n / 65536 % 256, n / 16777216 % 256]

/-- Schema descriptor carried in a record (crate::proto::SchemaInfo).
Modelled from the spec: proto/sensor_data.proto is not under src/; the
spec (section 4.1) lists the fields format string, schema name, schema
hash and schema payload bytes. -/
structure SchemaInfo where
  format : List Nat
  schema_name : List Nat
  schema_hash : List Nat
  schema_data : List Nat
  deriving Repr, DecidableEq

/-- Per-topic schema information from src/config/types.rs. -/
structure TopicSchemaInfo where
  format : List Nat
  schema_name : Option (List Nat)
  schema_hash : Option (List Nat)
  deriving Repr, DecidableEq

/-- Schema configuration from src/config/types.rs (the per-topic map is
modelled as an association list). -/
structure SchemaConfig where
  default_format : List Nat
  include_metadata : Bool
  per_topic : List (List Nat × TopicSchemaInfo)
  deriving Repr, DecidableEq

/-- McapSerializer::get_schema_info from src/mcap_writer.rs. -/
def get_schema_info (sc : SchemaConfig) (topic : List Nat) : Option SchemaInfo :=
  if !sc.include_metadata then Option.none
  else
    match sc.per_topic.lookup topic with
    | some tsi => some ⟨tsi.format, tsi.schema_name.getD [], tsi.schema_hash.getD [], []⟩
    | Option.none => some ⟨sc.default_format, [], [], []⟩

/-- Protobuf encoding of a SchemaInfo submessage.
Modelled from the spec: proto/sensor_data.proto is not under src/; the
four fields are encoded as protobuf length-delimited fields 1-4 in the
order listed by the spec. -/
def encodeSchemaInfo (si : SchemaInfo) : List Nat :=
  10 :: varintEncode si.format.length ++ si.format ++
  18 :: varintEncode si.schema_name.length ++ si.schema_name ++
  26 :: varintEncode si.schema_hash.length ++ si.schema_hash ++
  34 :: varintEncode si.schema_data.length ++ si.schema_data

/-- Protobuf encoding of one RecordedMessage as built in serialize_batch.
Modelled from the spec: proto/sensor_data.proto is not under src/; the
spec (section 4.1) describes a structured message encoding topic
(string), timestamp in nanoseconds (signed 64-bit, here the u64 bit
pattern of the i64 value), payload (opaque bytes) and an optional
schema descriptor; these are protobuf fields 1-4 in that order. -/
def encodeRecord (schema : Option SchemaInfo) (topic : List Nat) (ts : Nat)
    (payload : List Nat) : List Nat :=
  10 :: varintEncode topic.length ++ topic ++
  16 :: varintEncode ts ++
  26 :: varintEncode payload.length ++ payload ++
  (match schema with
   | Option.none => []
   | some si => 34 :: varintEncode (encodeSchemaInfo si).length ++ encodeSchemaInfo si)

/-- Timestamp policy of serialize_batch: the sample's source timestamp if
present, otherwise the wall clock at serialization time (passed in
explicitly as now, in nanoseconds). -/
def sampleTimestamp (s : Sample) (now : Nat) : Nat :=
  s.timestamp.getD now

/-- McapSerializer::write_header from src/mcap_writer.rs: the ASCII line
ZENOH_MCAP|topic=T|recording_id=I|count=N followed by a newline. -/
def write_header (topic rid : List Nat) (count : Nat) : List Nat :=
  strB "ZENOH_MCAP|topic=" ++ topic ++ strB "|recording_id=" ++ rid ++
  strB "|count=" ++ natDigits count ++ [10]

/-- McapSerializer state from src/mcap_writer.rs. -/
structure McapSerializer where
  compression_type : CompressionType
  compression_level : CompressionLevel
  schema_config : SchemaConfig

/-- McapSerializer::compress from src/mcap_writer.rs: dispatch on the
compression type. The lz4 and zstd compressors are external crates
(out of scope per the spec) and are passed in as functions taking the
native level chosen by the fixed ordinal mapping. -/
def compressFn (ct : CompressionType) (lvl : CompressionLevel)
    (lz4c : Nat → List Nat → List Nat) (zstdc : Int → List Nat → List Nat) :
    List Nat → List Nat :=
  match ct with
  | .none => fun data => data
  | .lz4 => lz4c lvl.to_lz4_level
  | .zstd => zstdc lvl.to_zstd_level

/-- McapSerializer::serialize_batch from src/mcap_writer.rs: empty input
returns an empty frame immediately; otherwise each sample is encoded as
a RecordedMessage, the records are concatenated with 4-byte
little-endian length prefixes after the ASCII header line, and the
whole assembly is passed through the selected compressor. -/
def serialize_batch (m : McapSerializer)
    (lz4c : Nat → List Nat → List Nat) (zstdc : Int → List Nat → List Nat)
    (topic : List Nat) (samples : List Sample) (rid : List Nat) (now : Nat) :
    Except String (List Nat) :=
  if samples.isEmpty then Except.ok []
  else
    let schema := get_schema_info m.schema_config topic
    let buffer :=
      write_header topic rid samples.length ++
      samples.flatMap (fun s =>
        let msg := encodeRecord schema topic (sampleTimestamp s now) s.payload
        u32le msg.length ++ msg)
    Except.ok (compressFn m.compression_type m.compression_level lz4c zstdc buffer)

/-- The decoding procedure described by the spec's round-trip property:
parse one protobuf RecordedMessage, skipping the topic field and the
optional trailing schema field, returning (payload bytes, timestamp). -/
def decodeRecord (bytes : List Nat) : Option (List Nat × Nat) :=
  match bytes with
  | 10 :: r1 =>
    match varintDecode r1 with
    | some (tlen, r2) =>
      match r2.drop tlen with
      | 16 :: r4 =>
        match varintDecode r4 with
        | some (ts, r5) =>
          match r5 with
          | 26 :: r6 =>
            match varintDecode r6 with
            | some (plen, r7) =>
              if plen ≤ r7.length then some (r7.take plen, ts) else Option.none
            | Option.none => Option.none
          | _ => Option.none
        | Option.none => Option.none
      | _ => Option.none
    | Option.none => Option.none
  | _ => Option.none

/-- Read the concatenation of 4-byte little-endian length-prefixed
records, decoding each record. -/
def decodeRecords (bytes : List Nat) : Option (List (List Nat × Nat)) :=
  match bytes with
  | [] => some []
  | b0 :: b1 :: b2 :: b3 :: rest =>
    let len := b0 + 256 * b1 + 65536 * b2 + 16777216 * b3
    match decodeRecord (rest.take len) with
    | some pt =>
      match decodeRecords (rest.drop len) with
      | some l => some (pt :: l)
      | Option.none => Option.none
    | Option.none => Option.none
  | _ => Option.none
termination_by bytes.length
decreasing_by simp [List.length_drop]; omega

/-- Strip the ASCII header line: drop every byte up to and including the
first newline (byte 10). -/
def stripHeaderLine (bytes : List Nat) : List Nat :=
  (bytes.dropWhile (fun b => b ≠ 10)).drop 1

/-- Decode an uncompressed frame: strip the header line, then read the
length-prefixed records. -/
def decodeFrame (bytes : List Nat) : Option (List (List Nat × Nat)) :=
  decodeRecords (stripHeaderLine bytes)

/-- topic.trim_start_matches('/') : drop every leading '/' character. -/
def trimLeadingSlashes (t : List Char) : List Char :=
  t.dropWhile (fun c => c = '/')

/-- str::replace('/', "_") : replace every '/' character with '_'. -/
def replaceSlashes (t : List Char) : List Char :=
  t.map (fun c => if c = '/' then '_' else c)

/-- str::replace("**", "all") : replace each non-overlapping occurrence of
the two-character pattern, scanning left to right as Rust's
str::replace does. -/
def replaceStarStar : List Char → List Char
  | [] => []
  | [c] => [c]
  | c :: d :: rest =>
    if c = '*' ∧ d = '*' then 'a' :: 'l' :: 'l' :: replaceStarStar rest
    else c :: replaceStarStar (d :: rest)

/-- topic_to_entry_name from src/storage.rs (same code in
src/storage/reductstore.rs): strip the leading separators, replace '/'
with '_', replace "**" with "all". -/
def topic_to_entry_name (topic : List Char) : List Char :=
  replaceStarStar (replaceSlashes (trimLeadingSlashes topic))

/-- FlushTask from src/buffer.rs: recording id, topic and the owned
sample list handed from a topic buffer to a flush worker. -/
structure FlushTask where
  topic : List Nat
  samples : List Sample
  recording_id : List Nat
  deriving Repr, DecidableEq

/-- TopicBuffer from src/buffer.rs: double-buffered accumulator for one
(recording, topic) pair. The shared ArrayQueue is modelled as a list
together with its capacity; wall time is passed explicitly (seconds,
as the source stores SystemTime as_secs). The dropped_tasks counter
records the queue-full warn event; the per-session drop statistic
itself lives in src/recorder.rs which is not part of the provided
sources (modelled from the spec, section 7 Queue-full). -/
structure TopicBuffer where
  topic_name : List Nat
  recording_id : List Nat
  front_buffer : List Sample
  back_buffer : List Sample
  active_is_front : Bool
  max_buffer_size : Nat
  max_buffer_duration : Nat
  last_flush_time : Nat
  total_samples : Nat
  total_bytes : Nat
  flush_queue : List FlushTask
  queue_capacity : Nat
  dropped_tasks : Nat
  deriving Repr, DecidableEq

/-- TopicBuffer::new from src/buffer.rs: empty double buffer, front
active, zero counters, last flush time set to the current wall time. -/
def TopicBuffer.new (topic_name recording_id : List Nat)
    (max_buffer_size max_buffer_duration : Nat)
    (queue_capacity nowSecs : Nat) : TopicBuffer :=
  { topic_name := topic_name
    recording_id := recording_id
    front_buffer := []
    back_buffer := []
    active_is_front := true
    max_buffer_size := max_buffer_size
    max_buffer_duration := max_buffer_duration
    last_flush_time := nowSecs
    total_samples := 0
    total_bytes := 0
    flush_queue := []
    queue_capacity := queue_capacity
    dropped_tasks := 0 }

/-- The list of samples currently in the active buffer. -/
def TopicBuffer.activeList (b : TopicBuffer) : List Sample :=
  if b.active_is_front then b.front_buffer else b.back_buffer

/-- TopicBuffer::should_flush from src/buffer.rs: flush when the active
byte counter reaches max_buffer_size or when at least
max_buffer_duration whole seconds have elapsed since the last flush. -/
def TopicBuffer.should_flush (b : TopicBuffer) (nowSecs : Nat) : Bool :=
  decide (b.max_buffer_size ≤ b.total_bytes) ||
  decide (b.max_buffer_duration ≤ nowSecs - b.last_flush_time)

/-- TopicBuffer::trigger_flush from src/buffer.rs: swap the active flag,
drain the previously active list into a FlushTask, reset the counters
and the last-flush time, then best-effort push the task onto the
bounded queue; a full queue drops the task (warn event counted in
dropped_tasks). -/
def TopicBuffer.trigger_flush (b : TopicBuffer) (nowSecs : Nat) : TopicBuffer :=
  let was_front := b.active_is_front
  let samples := if was_front then b.front_buffer else b.back_buffer
  let task : FlushTask := ⟨b.topic_name, samples, b.recording_id⟩
  let queueHasRoom := b.flush_queue.length < b.queue_capacity
  { b with
    active_is_front := !was_front
    front_buffer := if was_front then [] else b.front_buffer
    back_buffer := if was_front then b.back_buffer else []
    total_samples := 0
    total_bytes := 0
    last_flush_time := nowSecs
    flush_queue := if queueHasRoom then b.flush_queue ++ [task] else b.flush_queue
    dropped_tasks := if queueHasRoom then b.dropped_tasks else b.dropped_tasks + 1 }

/-- TopicBuffer::push_sample from src/buffer.rs: append the sample to the
active list, add its payload length to the byte counter, increment the
sample counter, then flush if either threshold is reached. Always
returns Ok. -/
def TopicBuffer.push_sample (b : TopicBuffer) (s : Sample) (nowSecs : Nat) :
    Except String TopicBuffer :=
  let b' := { b with
    front_buffer := if b.active_is_front then b.front_buffer ++ [s] else b.front_buffer
    back_buffer := if b.active_is_front then b.back_buffer else b.back_buffer ++ [s]
    total_samples := b.total_samples + 1
    total_bytes := b.total_bytes + s.payload.length }
  if b'.should_flush nowSecs then Except.ok (b'.trigger_flush nowSecs)
  else Except.ok b'

/-- TopicBuffer::force_flush from src/buffer.rs: unconditional
trigger_flush; always returns Ok. -/
def TopicBuffer.force_flush (b : TopicBuffer) (nowSecs : Nat) :
    Except String TopicBuffer :=
  Except.ok (b.trigger_flush nowSecs)

/-- TopicBuffer::stats from src/buffer.rs: the active-buffer sample and
byte counters. -/
def TopicBuffer.stats (b : TopicBuffer) : Nat × Nat :=
  (b.total_samples, b.total_bytes)

/-- FlushPolicy from src/config/types.rs. -/
structure FlushPolicy where
  max_buffer_size_bytes : Nat
  max_buffer_duration_seconds : Nat
  min_samples_per_flush : Nat
  deriving Repr, DecidableEq

/-- The retry loop of write_with_retry (src/storage/backend.rs default
implementation, repeated verbatim in src/storage/reductstore.rs and as
write_record_with_retry in src/storage.rs): attempt returns the
outcome of write_record on the given attempt index; the loop sleeps
the current delay before each retry, doubles it and caps it at 30
seconds (30000 ms). Structured on the number of remaining retries
(= max_retries - attempt in the source); returns the final outcome
and the list of slept delays in milliseconds. -/
def writeWithRetryGo {ε : Type} (attempt : Nat → Except ε Unit) :
    Nat → Nat → Nat → Except ε Unit × List Nat
  | attemptIdx, _, 0 =>
    match attempt attemptIdx with
    | Except.ok _ => (Except.ok (), [])
    | Except.error e => (Except.error e, [])
  | attemptIdx, delay, remaining + 1 =>
    match attempt attemptIdx with
    | Except.ok _ => (Except.ok (), [])
    | Except.error _ =>
      let next := min (delay * 2) 30000
      let r := writeWithRetryGo attempt (attemptIdx + 1) next remaining
      (r.1, delay :: r.2)

/-- write_with_retry from src/storage/backend.rs: start at attempt 0 with
a 100 ms delay; retry while attempt < max_retries. -/
def write_with_retry {ε : Type} (attempt : Nat → Except ε Unit) (max_retries : Nat) :
    Except ε Unit × List Nat :=
  writeWithRetryGo attempt 0 100 max_retries

/-- ReductStoreBackend::write_with_retry from src/storage/reductstore.rs:
a max_retries argument of 0 falls back to the backend's configured
max_retries, then the same loop runs. -/
def reduct_write_with_retry {ε : Type} (attempt : Nat → Except ε Unit)
    (self_max_retries max_retries : Nat) : Except ε Unit × List Nat :=
  write_with_retry attempt (if max_retries > 0 then max_retries else self_max_retries)

/-- Recording-session states (protocol.rs RecordingStatus without Idle;
the session itself lives in src/recorder.rs, not provided). -/
inductive SessionState where
  | Recording
  | Paused
  | Uploading
  | Finished
  | Cancelled
  deriving Repr, DecidableEq

/-- Control commands applicable to an existing session (section 4.5). -/
inductive SessionCommand where
  | pause
  | resume
  | cancel
  | finish
  deriving Repr, DecidableEq

/-- Whether a state is terminal (Finished or Cancelled). -/
def SessionState.isTerminal : SessionState → Bool
  | .Finished => true
  | .Cancelled => true
  | _ => false

/-- Modelled from the spec: src/recorder.rs (RecorderManager /
RecordingSession) is not part of the provided sources, so the session
state machine is taken from the specification's section 4.5 table.
Returns the trace of states entered, or a descriptive error: pause
only Recording to Paused; resume only Paused to Recording; cancel from
any non-terminal state to Cancelled; finish only from Recording or
Paused, passing through Uploading to Finished. -/
def applyCommand : SessionState → SessionCommand → Except String (List SessionState)
  | .Recording, .pause => Except.ok [.Paused]
  | _, .pause => Except.error "cannot pause: not recording"
  | .Paused, .resume => Except.ok [.Recording]
  | _, .resume => Except.error "cannot resume: not paused"
  | .Recording, .cancel => Except.ok [.Cancelled]
  | .Paused, .cancel => Except.ok [.Cancelled]
  | .Uploading, .cancel => Except.ok [.Cancelled]
  | _, .cancel => Except.error "cannot cancel: already terminated"
  | .Recording, .finish => Except.ok [.Uploading, .Finished]
  | .Paused, .finish => Except.ok [.Uploading, .Finished]
  | _, .finish => Except.error "cannot finish: invalid state"

/-- One observable control step on a session: the resulting state (the
last state of the trace on success, the unchanged state on failure)
and the error message if the transition is illegal. -/
def stepSession (s : SessionState) (c : SessionCommand) :
    SessionState × Option String :=
  match applyCommand s c with
  | Except.ok trace => (trace.getLast?.getD s, Option.none)
  | Except.error e => (s, some e)

theorem varintDecode_encodeAux (fuel : Nat) :
    ∀ n rest, n ≤ fuel → varintDecode (varintEncodeAux fuel n ++ rest) = some (n, rest) := by
  induction fuel with
  | zero =>
    intro n rest h
    interval_cases n
    simp [varintEncodeAux, varintDecode]
  | succ fuel ih =>
    intro n rest h
    by_cases h128 : n < 128
    · simp [varintEncodeAux, h128, varintDecode]
    · have hdiv : n / 128 ≤ fuel := by
        have := Nat.div_lt_self (by omega : 0 < n) (by omega : 1 < 128)
        omega
      have hmod : ¬ (n % 128 + 128 < 128) := by omega
      simp only [varintEncodeAux, if_neg h128, List.cons_append, varintDecode, if_neg hmod,
        ih (n / 128) rest hdiv]
      have : n % 128 + 128 - 128 + 128 * (n / 128) = n := by omega
      rw [this]

theorem varintDecode_encode (n : Nat) (rest : List Nat) :
    varintDecode (varintEncode n ++ rest) = some (n, rest) :=
  varintDecode_encodeAux n n rest le_rfl

theorem natDigitsAux_range (fuel : Nat) :
    ∀ n d, d ∈ natDigitsAux fuel n → 48 ≤ d ∧ d ≤ 57 := by
  induction fuel with
  | zero =>
    intro n d hd
    simp only [natDigitsAux, List.mem_singleton] at hd
    have := Nat.mod_lt n (by omega : 0 < 10)
    omega
  | succ fuel ih =>
    intro n d hd
    by_cases h10 : n < 10
    · simp only [natDigitsAux, if_pos h10, List.mem_singleton] at hd
      omega
    · simp only [natDigitsAux, if_neg h10, List.mem_append, List.mem_singleton] at hd
      rcases hd with hd | hd
      · exact ih _ _ hd
      · have := Nat.mod_lt n (by omega : 0 < 10)
        omega

theorem natDigits_ne_newline (n : Nat) : ∀ d ∈ natDigits n, d ≠ 10 := by
  intro d hd
  have := natDigitsAux_range n n d hd
  omega

theorem u32le_value (n : Nat) (h : n < 4294967296) :
    n % 256 + 256 * (n / 256 % 256) + 65536 * (n / 65536 % 256) +
      16777216 * (n / 16777216 % 256) = n := by
  omega

theorem decodeRecord_encodeRecord (schema : Option SchemaInfo) (topic : List Nat)
    (ts : Nat) (payload : List Nat) :
    decodeRecord (encodeRecord schema topic ts payload) = some (payload, ts) := by
  simp only [encodeRecord, decodeRecord, List.cons_append, List.append_assoc,
    varintDecode_encode, List.drop_left]
  rw [if_pos (by simp)]
  simp [List.take_left]

theorem stripHeaderLine_append (pre records : List Nat) (hpre : ∀ b ∈ pre, b ≠ 10) :
    stripHeaderLine (pre ++ 10 :: records) = records := by
  induction pre with
  | nil => simp [stripHeaderLine]
  | cons b pre ih =>
    have hb : b ≠ 10 := hpre b (by simp)
    simp only [List.cons_append, stripHeaderLine, List.dropWhile_cons] at *
    rw [if_pos (by simpa using hb)]
    exact ih (fun x hx => hpre x (by simp [hx]))

theorem write_header_split (topic rid : List Nat) (n : Nat) (records : List Nat) :
    write_header topic rid n ++ records =
      (strB "ZENOH_MCAP|topic=" ++ topic ++ strB "|recording_id=" ++ rid ++
        strB "|count=" ++ natDigits n) ++ 10 :: records := by
  simp [write_header, List.append_assoc]

theorem header_pre_no_newline (topic rid : List Nat) (n : Nat)
    (htop : ∀ b ∈ topic, b ≠ 10) (hrid : ∀ b ∈ rid, b ≠ 10) :
    ∀ b ∈ strB "ZENOH_MCAP|topic=" ++ topic ++ strB "|recording_id=" ++ rid ++
      strB "|count=" ++ natDigits n, b ≠ 10 := by
  intro b hb
  simp only [List.mem_append] at hb
  rcases hb with ((((h | h) | h) | h) | h) | h
  · revert h; revert b; decide
  · exact htop b h
  · revert h; revert b; decide
  · exact hrid b h
  · revert h; revert b; decide
  · exact natDigits_ne_newline n b h

theorem decodeRecords_flatMap {α : Type} (enc : α → List Nat) (f : α → List Nat × Nat)
    (samples : List α)
    (hlen : ∀ s ∈ samples, (enc s).length < 4294967296)
    (hdec : ∀ s ∈ samples, decodeRecord (enc s) = some (f s)) :
    decodeRecords (samples.flatMap fun s => u32le ((enc s).length) ++ enc s) =
      some (samples.map f) := by
  induction samples with
  | nil => simp [decodeRecords]
  | cons s ss ih =>
    have hL : (enc s).length < 4294967296 := hlen s (by simp)
    simp only [List.flatMap_cons, u32le, List.cons_append, List.append_assoc,
      List.nil_append]
    rw [decodeRecords]
    rw [u32le_value (enc s).length hL]
    rw [List.take_left, List.drop_left]
    rw [hdec s (by simp)]
    have ih' := ih (fun x hx => hlen x (by simp [hx])) (fun x hx => hdec x (by simp [hx]))
    simp only [u32le, List.cons_append, List.nil_append] at ih'
    rw [ih']
    simp

/-- Claim C1: for every list of samples, every compression type in
None/Lz4/Zstd and every compression level (the external lz4 and zstd
codecs being lossless and empty-preserving), decoding the frame
produced by serialize_batch — decompressing, stripping the ASCII
header line, then reading each 4-byte little-endian length-prefixed
record — yields exactly the input samples: same count, same payload
bytes, same order, and the source timestamp preserved for every sample
that carried one. -/
theorem serialize_batch_roundtrip (m : McapSerializer)
    (lz4c : Nat → List Nat → List Nat) (zstdc : Int → List Nat → List Nat)
    (decompress : List Nat → List Nat)
    (topic rid : List Nat) (samples : List Sample) (now : Nat)
    (hinv : ∀ b, decompress
      (compressFn m.compression_type m.compression_level lz4c zstdc b) = b)
    (hemp : decompress [] = [])
    (htop : ∀ b ∈ topic, b ≠ 10) (hrid : ∀ b ∈ rid, b ≠ 10)
    (hlen : ∀ s ∈ samples,
      (encodeRecord (get_schema_info m.schema_config topic) topic
        (sampleTimestamp s now) s.payload).length < 4294967296) :
    ∃ frame, serialize_batch m lz4c zstdc topic samples rid now = Except.ok frame ∧
      decodeFrame (decompress frame) =
        some (samples.map fun s => (s.payload, sampleTimestamp s now)) ∧
      (samples.map fun s => (s.payload, sampleTimestamp s now)).length =
        samples.length ∧
      ∀ s ∈ samples, ∀ t, s.timestamp = some t → sampleTimestamp s now = t := by
  by_cases hs : samples.isEmpty
  · rw [List.isEmpty_iff] at hs
    subst hs
    refine ⟨[], rfl, ?_, rfl, by simp⟩
    rw [hemp]
    simp [decodeFrame, stripHeaderLine, decodeRecords]
  · have hser : serialize_batch m lz4c zstdc topic samples rid now =
        Except.ok (compressFn m.compression_type m.compression_level lz4c zstdc
          (write_header topic rid samples.length ++
            samples.flatMap fun s =>
              u32le (encodeRecord (get_schema_info m.schema_config topic) topic
                (sampleTimestamp s now) s.payload).length ++
              encodeRecord (get_schema_info m.schema_config topic) topic
                (sampleTimestamp s now) s.payload)) := by
      simp [serialize_batch, hs]
    refine ⟨_, hser, ?_, by simp, ?_⟩
    · rw [hinv]
      rw [decodeFrame, write_header_split,
        stripHeaderLine_append _ _ (header_pre_no_newline topic rid samples.length htop hrid)]
      exact decodeRecords_flatMap
        (fun s => encodeRecord (get_schema_info m.schema_config topic) topic
          (sampleTimestamp s now) s.payload)
        (fun s => (s.payload, sampleTimestamp s now)) samples hlen
        (fun s _ => decodeRecord_encodeRecord _ _ _ _)
    · intro s _ t ht
      simp [sampleTimestamp, ht]

/-- Claim C7: for every topic, recording id and compression
configuration, serialize_batch applied to an empty sample list returns
a zero-byte output and does not return an error. -/
theorem serialize_batch_empty (m : McapSerializer)
    (lz4c : Nat → List Nat → List Nat) (zstdc : Int → List Nat → List Nat)
    (topic rid : List Nat) (now : Nat) :
    serialize_batch m lz4c zstdc topic [] rid now = Except.ok [] := rfl

/-- Claim C2: for every session state and control command the outcome
matches the section 4.5 table — pause succeeds only from Recording (to
Paused), resume only from Paused (to Recording), cancel succeeds from
every non-terminal state (to Cancelled), finish succeeds only from
Recording or Paused (via Uploading to Finished) — and every other
(state, command) pair fails with a descriptive error and leaves the
session state unchanged. -/
theorem session_transition_table :
    (stepSession .Recording .pause = (.Paused, Option.none)) ∧
    (stepSession .Paused .resume = (.Recording, Option.none)) ∧
    (stepSession .Recording .cancel = (.Cancelled, Option.none)) ∧
    (stepSession .Paused .cancel = (.Cancelled, Option.none)) ∧
    (stepSession .Uploading .cancel = (.Cancelled, Option.none)) ∧
    (applyCommand .Recording .finish = Except.ok [.Uploading, .Finished]) ∧
    (applyCommand .Paused .finish = Except.ok [.Uploading, .Finished]) ∧
    (stepSession .Recording .finish = (.Finished, Option.none)) ∧
    (stepSession .Paused .finish = (.Finished, Option.none)) ∧
    (∀ s : SessionState, s ≠ .Recording →
      (stepSession s .pause).1 = s ∧ (stepSession s .pause).2.isSome) ∧
    (∀ s : SessionState, s ≠ .Paused →
      (stepSession s .resume).1 = s ∧ (stepSession s .resume).2.isSome) ∧
    (∀ s : SessionState, s.isTerminal →
      (stepSession s .cancel).1 = s ∧ (stepSession s .cancel).2.isSome) ∧
    (∀ s : SessionState, s ≠ .Recording → s ≠ .Paused →
      (stepSession s .finish).1 = s ∧ (stepSession s .finish).2.isSome) ∧
    (∀ s : SessionState, ∀ c : SessionCommand, ¬ s.isTerminal →
      c = .cancel → stepSession s c = (.Cancelled, Option.none)) := by
  refine ⟨rfl, rfl, rfl, rfl, rfl, rfl, rfl, rfl, rfl, ?_, ?_, ?_, ?_, ?_⟩
  · intro s hs
    cases s <;> simp_all [stepSession, applyCommand]
  · intro s hs
    cases s <;> simp_all [stepSession, applyCommand]
  · intro s hs
    cases s <;> simp_all [stepSession, applyCommand, SessionState.isTerminal]
  · intro s h1 h2
    cases s <;> simp_all [stepSession, applyCommand]
  · intro s c h1 h2
    subst h2
    cases s <;> simp_all [stepSession, applyCommand, SessionState.isTerminal]

theorem writeWithRetryGo_all_fail {ε : Type} (err : Nat → ε) :
    ∀ (remaining idx k : Nat),
      writeWithRetryGo (fun i => Except.error (err i)) idx
        (min (100 * 2 ^ k) 30000) remaining =
      (Except.error (err (idx + remaining)),
        (List.range remaining).map fun i => min (100 * 2 ^ (k + i)) 30000) := by
  intro remaining
  induction remaining with
  | zero => intro idx k; simp [writeWithRetryGo]
  | succ remaining ih =>
    intro idx k
    have hmin : ∀ a : Nat, min (min a 30000 * 2) 30000 = min (a * 2) 30000 := by
      intro a; omega
    simp only [writeWithRetryGo]
    have hnext : min (min (100 * 2 ^ k) 30000 * 2) 30000 = min (100 * 2 ^ (k + 1)) 30000 := by
      rw [hmin]
      congr 1
      rw [pow_succ]
      ring
    rw [hnext, ih (idx + 1) (k + 1)]
    have hidx : idx + 1 + remaining = idx + (remaining + 1) := by omega
    have hmap : (List.range remaining).map (fun i => min (100 * 2 ^ (k + 1 + i)) 30000) =
        (List.range remaining).map ((fun i => min (100 * 2 ^ (k + i)) 30000) ∘ Nat.succ) := by
      apply List.map_congr_left
      intro i _
      simp only [Function.comp_apply]
      have hkk : k + 1 + i = k + Nat.succ i := by omega
      rw [hkk]
    simp only [List.range_succ_eq_map, List.map_cons, List.map_map, hidx, hmap]
    simp

/-- Claim C3 (amended): write_with_retry retries every failed write —
it does not distinguish transient from permanent failures — sleeping
100 ms before the first retry and doubling the delay up to a cap of
30 s, and returns the final attempt's error once max_retries retries
are exhausted. -/
theorem write_with_retry_backoff {ε : Type} (err : Nat → ε) (max_retries : Nat) :
    write_with_retry (fun i => Except.error (err i)) max_retries =
      (Except.error (err max_retries),
        (List.range max_retries).map fun i => min (100 * 2 ^ i) 30000) := by
  have h100 : (100 : Nat) = min (100 * 2 ^ 0) 30000 := by norm_num
  rw [write_with_retry, h100, writeWithRetryGo_all_fail err max_retries 0 0]
  simp

/-- Claim C3 (counterexample): a permanent HTTP 4xx failure (modelled as
error code 404 on every attempt) is not surfaced immediately: with
max_retries = 3 the loop sleeps 100, 200 and 400 ms — it retries the
permanent error exactly like a transient one. -/
theorem write_with_retry_retries_permanent_4xx :
    write_with_retry (fun _ => Except.error (404 : Nat)) 3 =
      (Except.error 404, [100, 200, 400]) ∧
    (write_with_retry (fun _ => Except.error (404 : Nat)) 3).2 ≠ [] := by
  constructor
  · rfl
  · decide

theorem replaceStarStar_no_star :
    ∀ l : List Char, (∀ c ∈ l, c ≠ '*') → replaceStarStar l = l := by
  intro l
  induction l using replaceStarStar.induct with
  | case1 =>
    intro h
    rfl
  | case2 c =>
    intro h
    rfl
  | case3 c d rest hcond ih =>
    intro h
    exact absurd hcond.1 (h c (by simp))
  | case4 c d rest hcond ih =>
    intro h
    rw [replaceStarStar, if_neg hcond]
    rw [ih (fun x hx => h x (by simp at hx ⊢; tauto))]

theorem replaceSlashes_no_star (l : List Char) (h : ∀ c ∈ l, c ≠ '*') :
    ∀ c ∈ replaceSlashes l, c ≠ '*' := by
  intro c hc
  simp only [replaceSlashes, List.mem_map] at hc
  obtain ⟨a, ha, rfl⟩ := hc
  by_cases hsl : a = '/'
  · simp [hsl]
  · simpa [hsl] using h a ha

theorem replaceSlashes_cancel :
    ∀ l : List Char, (∀ c ∈ l, c ≠ '_') →
      (replaceSlashes l).map (fun c => if c = '_' then '/' else c) = l := by
  intro l
  induction l with
  | nil => intro _; rfl
  | cons a t ih =>
    intro h
    have ha : a ≠ '_' := h a (by simp)
    have ht := ih (fun x hx => h x (by simp [hx]))
    by_cases hsl : a = '/'
    · simp only [replaceSlashes, List.map_cons, if_pos hsl, hsl] at ht ⊢
      simp [ht]
    · simp only [replaceSlashes, List.map_cons, if_neg hsl] at ht ⊢
      simp [if_neg ha, ht]

theorem trimLeadingSlashes_single (s₁ : List Char) (h : s₁.head? ≠ some '/') :
    trimLeadingSlashes ('/' :: s₁) = s₁ := by
  simp only [trimLeadingSlashes, List.dropWhile_cons]
  rw [if_pos (by simp)]
  cases s₁ with
  | nil => rfl
  | cons a t =>
    simp only [List.head?] at h
    simp only [List.dropWhile_cons]
    rw [if_neg (by simpa using fun hc => h (by rw [hc]))]

/-- Claim C8 (amended): topic_to_entry_name strips the leading
separators, replaces every '/' with '_' and replaces the multi-level
wildcard "**" with "all"; it is deterministic, and it is collision-free
on topic paths in canonical form (exactly one leading separator, no
underscore and no asterisk characters) — but not on arbitrary distinct
topic paths. -/
theorem topic_to_entry_name_deterministic_and_injective :
    (∀ s t : List Char, s = t → topic_to_entry_name s = topic_to_entry_name t) ∧
    (∀ s t : List Char,
      s.head? = some '/' → t.head? = some '/' →
      (s.drop 1).head? ≠ some '/' → (t.drop 1).head? ≠ some '/' →
      (∀ c ∈ s, c ≠ '_') → (∀ c ∈ t, c ≠ '_') →
      (∀ c ∈ s, c ≠ '*') → (∀ c ∈ t, c ≠ '*') →
      topic_to_entry_name s = topic_to_entry_name t → s = t) := by
  constructor
  · intro s t h
    rw [h]
  · intro s t hs ht hs1 ht1 hsu htu hss hts heq
    cases s with
    | nil => simp at hs
    | cons a s₁ =>
      cases t with
      | nil => simp at ht
      | cons b t₁ =>
        have ha : a = '/' := by simpa using hs
        have hb : b = '/' := by simpa using ht
        subst ha
        subst hb
        simp only [List.drop_one, List.tail_cons] at hs1 ht1
        have htrims : trimLeadingSlashes ('/' :: s₁) = s₁ :=
          trimLeadingSlashes_single s₁ hs1
        have htrimt : trimLeadingSlashes ('/' :: t₁) = t₁ :=
          trimLeadingSlashes_single t₁ ht1
        rw [topic_to_entry_name, topic_to_entry_name, htrims, htrimt,
          replaceStarStar_no_star _ (replaceSlashes_no_star s₁
            (fun c hc => hss c (by simp [hc]))),
          replaceStarStar_no_star _ (replaceSlashes_no_star t₁
            (fun c hc => hts c (by simp [hc])))] at heq
        have hcs := replaceSlashes_cancel s₁ (fun c hc => hsu c (by simp [hc]))
        have hct := replaceSlashes_cancel t₁ (fun c hc => htu c (by simp [hc]))
        rw [heq] at hcs
        rw [hct] at hcs
        rw [hcs]

/-- Claim C8 (counterexample): the mapping is not collision-free on
arbitrary distinct topic paths: the distinct topics a_b and a/b map to
the same entry name a_b. -/
theorem topic_to_entry_name_collision :
    topic_to_entry_name ['a', '_', 'b'] = topic_to_entry_name ['a', '/', 'b'] ∧
    (['a', '_', 'b'] : List Char) ≠ ['a', '/', 'b'] := by
  constructor
  · rfl
  · decide

/-- Witness for the amended claim C8 at the concrete canonical topic
path /a: the hypotheses hold and injectivity applies. -/
theorem topic_to_entry_name_injective_witness :
    topic_to_entry_name ['/', 'a'] = topic_to_entry_name ['/', 'a'] ∧
    (['/', 'a'] : List Char) = ['/', 'a'] :=
  ⟨topic_to_entry_name_deterministic_and_injective.1 ['/', 'a'] ['/', 'a'] rfl,
   topic_to_entry_name_deterministic_and_injective.2 ['/', 'a'] ['/', 'a']
     (by decide) (by decide) (by decide) (by decide) (by decide) (by decide)
     (by decide) (by decide) rfl⟩

theorem flatMap_congr_mem {α β : Type} (l : List α) (f g : α → List β)
    (h : ∀ a ∈ l, f a = g a) : l.flatMap f = l.flatMap g := by
  induction l with
  | nil => rfl
  | cons a t ih =>
    simp only [List.flatMap_cons, h a (by simp),
      ih (fun x hx => h x (by simp [hx]))]

/-- Claim C5 (amended): serialize_batch is deterministic given its inputs
together with the serialization-time wall clock; in particular, when
every sample carries a source timestamp the output frame does not
depend on the wall clock at all, so any two invocations return the
identical byte frame. -/
theorem serialize_batch_deterministic_with_timestamps (m : McapSerializer)
    (lz4c : Nat → List Nat → List Nat) (zstdc : Int → List Nat → List Nat)
    (topic rid : List Nat) (samples : List Sample) (now₁ now₂ : Nat)
    (h : ∀ s ∈ samples, s.timestamp.isSome) :
    serialize_batch m lz4c zstdc topic samples rid now₁ =
      serialize_batch m lz4c zstdc topic samples rid now₂ := by
  by_cases hs : samples.isEmpty
  · simp [serialize_batch, hs]
  · simp only [serialize_batch, hs, Bool.false_eq_true, if_false]
    have hts : ∀ s ∈ samples, sampleTimestamp s now₁ = sampleTimestamp s now₂ := by
      intro s hmem
      obtain ⟨t, ht⟩ := Option.isSome_iff_exists.mp (h s hmem)
      simp [sampleTimestamp, ht]
    rw [flatMap_congr_mem samples _ _ (fun s hmem => by rw [hts s hmem])]

/-- Claim C5 (counterexample): serialize_batch is not a pure function of
topic, recording id, samples, schema configuration and compression
selection alone: a sample with no source timestamp embeds the wall
clock, so two invocations at different times return different frames
(here with compression None at wall clocks 0 and 1). -/
theorem serialize_batch_wall_clock_dependent :
    (serialize_batch ⟨CompressionType.none, CompressionLevel.Default, ⟨[], false, []⟩⟩
      (fun _ b => b) (fun _ b => b) [97] [⟨[1], Option.none⟩] [114] 0).toOption ≠
    (serialize_batch ⟨CompressionType.none, CompressionLevel.Default, ⟨[], false, []⟩⟩
      (fun _ b => b) (fun _ b => b) [97] [⟨[1], Option.none⟩] [114] 1).toOption := by
  decide

/-- Witness for the amended claim C5 at a concrete one-sample batch whose
sample carries a timestamp: invocations at wall clocks 0 and 1 agree. -/
theorem serialize_batch_deterministic_witness :
    (∀ s ∈ [Sample.mk [1] (some 5)], s.timestamp.isSome) ∧
    serialize_batch ⟨CompressionType.none, CompressionLevel.Default, ⟨[], false, []⟩⟩
      (fun _ b => b) (fun _ b => b) [97] [Sample.mk [1] (some 5)] [114] 0 =
    serialize_batch ⟨CompressionType.none, CompressionLevel.Default, ⟨[], false, []⟩⟩
      (fun _ b => b) (fun _ b => b) [97] [Sample.mk [1] (some 5)] [114] 1 :=
  ⟨by decide,
   serialize_batch_deterministic_with_timestamps _ _ _ _ _ _ 0 1 (by decide)⟩

/-- Core flush behaviour of push_sample when a threshold is crossed:
shared between several results below.
Original claim text: every push_sample call that raises the active byte counter
to at least max_buffer_size, or that occurs when at least
max_buffer_duration seconds have elapsed since the last flush, swaps
the active buffer, builds one flush task containing exactly the
previously active samples in push order (including the pushed sample),
resets the sample counter, byte counter and last-flush time, attempts
to enqueue the task (appending it when the bounded queue has room),
and afterwards stats() returns (0, 0). -/
theorem push_sample_flush_core (b : TopicBuffer) (s : Sample) (now : Nat)
    (h : b.max_buffer_size ≤ b.total_bytes + s.payload.length ∨
         b.max_buffer_duration ≤ now - b.last_flush_time) :
    ∃ b', b.push_sample s now = Except.ok b' ∧
      b'.active_is_front = !b.active_is_front ∧
      b'.total_samples = 0 ∧ b'.total_bytes = 0 ∧
      b'.last_flush_time = now ∧ b'.stats = (0, 0) ∧
      (b.flush_queue.length < b.queue_capacity →
        b'.flush_queue = b.flush_queue ++
          [⟨b.topic_name, b.activeList ++ [s], b.recording_id⟩]) ∧
      (¬ b.flush_queue.length < b.queue_capacity →
        b'.flush_queue = b.flush_queue) := by
  have hcond : TopicBuffer.should_flush { b with
      front_buffer := if b.active_is_front then b.front_buffer ++ [s] else b.front_buffer,
      back_buffer := if b.active_is_front then b.back_buffer else b.back_buffer ++ [s],
      total_samples := b.total_samples + 1,
      total_bytes := b.total_bytes + s.payload.length } now = true := by
    simp only [TopicBuffer.should_flush, Bool.or_eq_true, decide_eq_true_eq]
    exact h
  simp only [TopicBuffer.push_sample, hcond, if_true]
  refine ⟨_, rfl, rfl, rfl, rfl, rfl, rfl, ?_, ?_⟩
  · intro hroom
    simp only [TopicBuffer.trigger_flush, TopicBuffer.activeList]
    rw [if_pos hroom]
    by_cases hf : b.active_is_front <;> simp [hf]
  · intro hfull
    simp only [TopicBuffer.trigger_flush]
    rw [if_neg hfull]

/-- Claim C4: every push_sample call that raises the active byte counter
to at least max_buffer_size, or that occurs when at least
max_buffer_duration seconds have elapsed since the last flush, swaps
the active buffer, builds one flush task containing exactly the
previously active samples in push order (including the pushed sample),
resets the sample counter, byte counter and last-flush time, attempts
to enqueue the task (appending it when the bounded queue has room),
and afterwards stats() returns (0, 0). -/
theorem push_sample_flush (b : TopicBuffer) (s : Sample) (now : Nat)
    (h : b.max_buffer_size ≤ b.total_bytes + s.payload.length ∨
         b.max_buffer_duration ≤ now - b.last_flush_time) :
    ∃ b', b.push_sample s now = Except.ok b' ∧
      b'.active_is_front = !b.active_is_front ∧
      b'.total_samples = 0 ∧ b'.total_bytes = 0 ∧
      b'.last_flush_time = now ∧ b'.stats = (0, 0) ∧
      (b.flush_queue.length < b.queue_capacity →
        b'.flush_queue = b.flush_queue ++
          [⟨b.topic_name, b.activeList ++ [s], b.recording_id⟩]) ∧
      (¬ b.flush_queue.length < b.queue_capacity →
        b'.flush_queue = b.flush_queue) :=
  push_sample_flush_core b s now h

/-- Witness for claim C4: a fresh buffer with a 5-byte threshold receives
a 5-byte sample; the size trigger fires and the single-sample task is
enqueued. -/
theorem push_sample_flush_witness :
    ((TopicBuffer.new [97] [114] 5 10 4 0).max_buffer_size ≤
      (TopicBuffer.new [97] [114] 5 10 4 0).total_bytes +
        (Sample.mk [1, 2, 3, 4, 5] Option.none).payload.length ∨
     (TopicBuffer.new [97] [114] 5 10 4 0).max_buffer_duration ≤
      3 - (TopicBuffer.new [97] [114] 5 10 4 0).last_flush_time) ∧
    ∃ b', (TopicBuffer.new [97] [114] 5 10 4 0).push_sample
        (Sample.mk [1, 2, 3, 4, 5] Option.none) 3 = Except.ok b' ∧
      b'.active_is_front = !(TopicBuffer.new [97] [114] 5 10 4 0).active_is_front ∧
      b'.total_samples = 0 ∧ b'.total_bytes = 0 ∧
      b'.last_flush_time = 3 ∧ b'.stats = (0, 0) ∧
      ((TopicBuffer.new [97] [114] 5 10 4 0).flush_queue.length <
          (TopicBuffer.new [97] [114] 5 10 4 0).queue_capacity →
        b'.flush_queue = (TopicBuffer.new [97] [114] 5 10 4 0).flush_queue ++
          [⟨(TopicBuffer.new [97] [114] 5 10 4 0).topic_name,
            (TopicBuffer.new [97] [114] 5 10 4 0).activeList ++
              [Sample.mk [1, 2, 3, 4, 5] Option.none],
            (TopicBuffer.new [97] [114] 5 10 4 0).recording_id⟩]) ∧
      (¬ (TopicBuffer.new [97] [114] 5 10 4 0).flush_queue.length <
          (TopicBuffer.new [97] [114] 5 10 4 0).queue_capacity →
        b'.flush_queue = (TopicBuffer.new [97] [114] 5 10 4 0).flush_queue) :=
  ⟨Or.inl (by decide),
   push_sample_flush (TopicBuffer.new [97] [114] 5 10 4 0)
     (Sample.mk [1, 2, 3, 4, 5] Option.none) 3 (Or.inl (by decide))⟩

/-- Claim C6: when the bounded flush queue is full, the flush task is
dropped (the queue is unchanged), the event is counted in the drop
statistic, and the failure is not surfaced to the caller: force_flush
and push_sample still return Ok and the buffer's counters are reset by
the swap, so stats() returns (0, 0). -/
theorem queue_full_drop (b : TopicBuffer) (s : Sample) (now : Nat)
    (hfull : ¬ b.flush_queue.length < b.queue_capacity)
    (htrig : b.max_buffer_size ≤ b.total_bytes + s.payload.length ∨
             b.max_buffer_duration ≤ now - b.last_flush_time) :
    (∃ b₁, b.force_flush now = Except.ok b₁ ∧
      b₁.flush_queue = b.flush_queue ∧
      b₁.dropped_tasks = b.dropped_tasks + 1 ∧
      b₁.stats = (0, 0)) ∧
    (∃ b₂, b.push_sample s now = Except.ok b₂ ∧
      b₂.flush_queue = b.flush_queue ∧
      b₂.dropped_tasks = b.dropped_tasks + 1 ∧
      b₂.stats = (0, 0)) := by
  constructor
  · refine ⟨_, rfl, ?_, ?_, rfl⟩
    · simp only [TopicBuffer.trigger_flush]
      rw [if_neg hfull]
    · simp only [TopicBuffer.trigger_flush]
      rw [if_neg hfull]
  · have hcond : TopicBuffer.should_flush { b with
        front_buffer := if b.active_is_front then b.front_buffer ++ [s] else b.front_buffer,
        back_buffer := if b.active_is_front then b.back_buffer else b.back_buffer ++ [s],
        total_samples := b.total_samples + 1,
        total_bytes := b.total_bytes + s.payload.length } now = true := by
      simp only [TopicBuffer.should_flush, Bool.or_eq_true, decide_eq_true_eq]
      exact htrig
    simp only [TopicBuffer.push_sample, hcond, if_true]
    refine ⟨_, rfl, ?_, ?_, rfl⟩
    · simp only [TopicBuffer.trigger_flush]
      rw [if_neg hfull]
    · simp only [TopicBuffer.trigger_flush]
      rw [if_neg hfull]

/-- Witness for claim C6: a buffer whose queue (capacity 1) already holds
one task receives a threshold-crossing sample; the new task is dropped,
the drop counter increments, and both operations return Ok. -/
theorem queue_full_drop_witness :
    (¬ ({ TopicBuffer.new [97] [114] 5 10 1 0 with
        flush_queue := [⟨[97], [], [114]⟩] } : TopicBuffer).flush_queue.length <
      ({ TopicBuffer.new [97] [114] 5 10 1 0 with
        flush_queue := [⟨[97], [], [114]⟩] } : TopicBuffer).queue_capacity) ∧
    (∃ b₁, ({ TopicBuffer.new [97] [114] 5 10 1 0 with
        flush_queue := [⟨[97], [], [114]⟩] } : TopicBuffer).force_flush 3 =
        Except.ok b₁ ∧
      b₁.flush_queue = ({ TopicBuffer.new [97] [114] 5 10 1 0 with
        flush_queue := [⟨[97], [], [114]⟩] } : TopicBuffer).flush_queue ∧
      b₁.dropped_tasks = ({ TopicBuffer.new [97] [114] 5 10 1 0 with
        flush_queue := [⟨[97], [], [114]⟩] } : TopicBuffer).dropped_tasks + 1 ∧
      b₁.stats = (0, 0)) ∧
    (∃ b₂, ({ TopicBuffer.new [97] [114] 5 10 1 0 with
        flush_queue := [⟨[97], [], [114]⟩] } : TopicBuffer).push_sample
        (Sample.mk [1, 2, 3, 4, 5] Option.none) 3 = Except.ok b₂ ∧
      b₂.flush_queue = ({ TopicBuffer.new [97] [114] 5 10 1 0 with
        flush_queue := [⟨[97], [], [114]⟩] } : TopicBuffer).flush_queue ∧
      b₂.dropped_tasks = ({ TopicBuffer.new [97] [114] 5 10 1 0 with
        flush_queue := [⟨[97], [], [114]⟩] } : TopicBuffer).dropped_tasks + 1 ∧
      b₂.stats = (0, 0)) :=
  ⟨by decide,
   (queue_full_drop ({ TopicBuffer.new [97] [114] 5 10 1 0 with
       flush_queue := [⟨[97], [], [114]⟩] })
     (Sample.mk [1, 2, 3, 4, 5] Option.none) 3 (by decide) (Or.inl (by decide))).1,
   (queue_full_drop ({ TopicBuffer.new [97] [114] 5 10 1 0 with
       flush_queue := [⟨[97], [], [114]⟩] })
     (Sample.mk [1, 2, 3, 4, 5] Option.none) 3 (by decide) (Or.inl (by decide))).2⟩

/-- Claim C9: force_flush on a buffer whose active list is empty still
swaps the buffers, resets the counters and last-flush time, and (when
the queue has room) enqueues a FlushTask whose sample list is empty —
a flush is never skipped for lack of data — and serializing such an
empty task yields a zero-byte frame. -/
theorem force_flush_empty_enqueues (b : TopicBuffer) (now : Nat)
    (m : McapSerializer) (lz4c : Nat → List Nat → List Nat)
    (zstdc : Int → List Nat → List Nat) (nowNs : Nat)
    (hempty : b.activeList = [])
    (hroom : b.flush_queue.length < b.queue_capacity) :
    ∃ b', b.force_flush now = Except.ok b' ∧
      b'.active_is_front = !b.active_is_front ∧
      b'.total_samples = 0 ∧ b'.total_bytes = 0 ∧
      b'.last_flush_time = now ∧ b'.stats = (0, 0) ∧
      b'.flush_queue = b.flush_queue ++ [⟨b.topic_name, [], b.recording_id⟩] ∧
      serialize_batch m lz4c zstdc b.topic_name [] b.recording_id nowNs =
        Except.ok [] := by
  refine ⟨_, rfl, rfl, rfl, rfl, rfl, rfl, ?_, rfl⟩
  simp only [TopicBuffer.trigger_flush]
  rw [if_pos hroom]
  simp only [TopicBuffer.activeList] at hempty
  rw [hempty]

/-- Witness for claim C9: force-flushing a fresh (empty) buffer enqueues
an empty flush task and resets the counters. -/
theorem force_flush_empty_witness :
    (TopicBuffer.new [97] [114] 5 10 4 0).activeList = [] ∧
    ∃ b', (TopicBuffer.new [97] [114] 5 10 4 0).force_flush 3 = Except.ok b' ∧
      b'.active_is_front = !(TopicBuffer.new [97] [114] 5 10 4 0).active_is_front ∧
      b'.total_samples = 0 ∧ b'.total_bytes = 0 ∧
      b'.last_flush_time = 3 ∧ b'.stats = (0, 0) ∧
      b'.flush_queue = (TopicBuffer.new [97] [114] 5 10 4 0).flush_queue ++
        [⟨(TopicBuffer.new [97] [114] 5 10 4 0).topic_name, [],
          (TopicBuffer.new [97] [114] 5 10 4 0).recording_id⟩] ∧
      serialize_batch ⟨CompressionType.zstd, CompressionLevel.Default, ⟨[], false, []⟩⟩
        (fun _ b => b) (fun _ b => b)
        (TopicBuffer.new [97] [114] 5 10 4 0).topic_name []
        (TopicBuffer.new [97] [114] 5 10 4 0).recording_id 9 = Except.ok [] :=
  ⟨by decide,
   force_flush_empty_enqueues (TopicBuffer.new [97] [114] 5 10 4 0) 3
     ⟨CompressionType.zstd, CompressionLevel.Default, ⟨[], false, []⟩⟩
     (fun _ b => b) (fun _ b => b) 9 (by decide) (by decide)⟩

/-- Claim C10: the flush decision of TopicBuffer depends only on the
active byte count and the whole seconds elapsed since the last flush —
TopicBuffer never consults min_samples_per_flush (TopicBuffer.new does
not even receive it) — so for every FlushPolicy, however large its
min_samples_per_flush, a single sufficiently large pushed sample
produces a flush task containing exactly one sample. -/
theorem flush_ignores_min_samples (p : FlushPolicy) (topic rid : List Nat)
    (cap now₀ now : Nat) (s : Sample)
    (hcap : 0 < cap)
    (hsize : p.max_buffer_size_bytes ≤ s.payload.length) :
    ∃ b', (TopicBuffer.new topic rid p.max_buffer_size_bytes
        p.max_buffer_duration_seconds cap now₀).push_sample s now = Except.ok b' ∧
      b'.flush_queue = [⟨topic, [s], rid⟩] ∧
      (b'.flush_queue.map fun t => t.samples.length) = [1] := by
  obtain ⟨b', hok, _, _, _, _, _, hq, _⟩ :=
    push_sample_flush_core (TopicBuffer.new topic rid p.max_buffer_size_bytes
      p.max_buffer_duration_seconds cap now₀) s now
      (Or.inl (by simpa [TopicBuffer.new] using hsize))
  have hq' := hq (by simpa [TopicBuffer.new] using hcap)
  refine ⟨b', hok, ?_, ?_⟩
  · simpa [TopicBuffer.new, TopicBuffer.activeList] using hq'
  · rw [show b'.flush_queue = [⟨topic, [s], rid⟩] by
      simpa [TopicBuffer.new, TopicBuffer.activeList] using hq']
    rfl

/-- Witness for claim C10: a policy demanding at least 1000 samples per
flush still sees a one-sample flush task when a single 5-byte sample
crosses the 5-byte size threshold. -/
theorem flush_ignores_min_samples_witness :
    0 < 4 ∧
    (FlushPolicy.mk 5 10 1000).max_buffer_size_bytes ≤
      (Sample.mk [1, 2, 3, 4, 5] Option.none).payload.length ∧
    ∃ b', (TopicBuffer.new [97] [114] (FlushPolicy.mk 5 10 1000).max_buffer_size_bytes
        (FlushPolicy.mk 5 10 1000).max_buffer_duration_seconds 4 0).push_sample
        (Sample.mk [1, 2, 3, 4, 5] Option.none) 3 = Except.ok b' ∧
      b'.flush_queue = [⟨[97], [Sample.mk [1, 2, 3, 4, 5] Option.none], [114]⟩] ∧
      (b'.flush_queue.map fun t => t.samples.length) = [1] :=
  ⟨by decide, by decide,
   flush_ignores_min_samples (FlushPolicy.mk 5 10 1000) [97] [114] 4 0 3
     (Sample.mk [1, 2, 3, 4, 5] Option.none) (by decide) (by decide)⟩

/-- Witness for claim C1: a concrete two-sample batch (one sample with a
source timestamp, one without) round-trips with compression None. -/
theorem serialize_batch_roundtrip_witness :
    (∀ b ∈ [(97 : Nat)], b ≠ 10) ∧
    (∀ s ∈ [Sample.mk [1, 2] (some 5), Sample.mk [3] Option.none],
      (encodeRecord (get_schema_info ⟨[], false, []⟩ [97]) [97]
        (sampleTimestamp s 7) s.payload).length < 4294967296) ∧
    ∃ frame,
      serialize_batch ⟨CompressionType.none, CompressionLevel.Default, ⟨[], false, []⟩⟩
        (fun _ b => b) (fun _ b => b) [97]
        [Sample.mk [1, 2] (some 5), Sample.mk [3] Option.none] [114] 7 =
        Except.ok frame ∧
      decodeFrame ((fun b => b) frame) =
        some ([Sample.mk [1, 2] (some 5), Sample.mk [3] Option.none].map
          fun s => (s.payload, sampleTimestamp s 7)) ∧
      ([Sample.mk [1, 2] (some 5), Sample.mk [3] Option.none].map
          fun s => (s.payload, sampleTimestamp s 7)).length =
        ([Sample.mk [1, 2] (some 5), Sample.mk [3] Option.none] : List Sample).length ∧
      ∀ s ∈ [Sample.mk [1, 2] (some 5), Sample.mk [3] Option.none],
        ∀ t, s.timestamp = some t → sampleTimestamp s 7 = t :=
  ⟨by decide, by decide,
   serialize_batch_roundtrip
     ⟨CompressionType.none, CompressionLevel.Default, ⟨[], false, []⟩⟩
     (fun _ b => b) (fun _ b => b) (fun b => b) [97] [114]
     [Sample.mk [1, 2] (some 5), Sample.mk [3] Option.none] 7
     (fun b => rfl) rfl (by decide) (by decide) (by decide)⟩
